import Mathlib

/-!
Verification of the plugin orchestration and signature-engine core of the
cuckoo-modified repository (file `lib/cuckoo/core/plugins.py`).

The Python source is shallowly embedded: each relevant function of the source
is translated into an executable Lean definition.  Python exceptions are
modelled with `Except PyError`; Python `float` arithmetic on the small
integral scores is modelled with `ℚ`; Python lists are Lean lists; the
CPython semantics of iterating a list while removing elements from it is
modelled index-based, exactly as CPython's list iterator behaves.
-/

/-- Exceptions that can escape the embedded code. -/
inductive PyError where
  | indexError : PyError
  | keyError : PyError
  | attributeError : PyError
  | ctorError : String → PyError
deriving DecidableEq

deriving instance DecidableEq for Except

/-! ## Character and string helpers (ASCII semantics of the Python methods used) -/

/-- ASCII letter test, as used by the regex class `[A-Za-z]`. -/
def isAsciiLetter (c : Char) : Bool :=
  ('A' ≤ c && c ≤ 'Z') || ('a' ≤ c && c ≤ 'z')

/-- ASCII digit test, `[0-9]`. -/
def isAsciiDigit (c : Char) : Bool :=
  '0' ≤ c && c ≤ '9'

/-- Character class of the regex `[A-Za-z0-9\.]` used on Suricata alert strings. -/
def isWordChar (c : Char) : Bool :=
  isAsciiLetter c || isAsciiDigit c || c = '.'

/-- `re.findall(r"[A-Za-z0-9\.]+", s)`: the maximal runs of word characters.
`acc` holds the current run, reversed. -/
def tokenizeGo : List Char → List Char → List (List Char)
  | [], acc => if acc = [] then [] else [acc.reverse]
  | c :: cs, acc =>
    if isWordChar c then tokenizeGo cs (c :: acc)
    else if acc = [] then tokenizeGo cs [] else acc.reverse :: tokenizeGo cs []

/-- All `[A-Za-z0-9\.]+` tokens of a string, in order. -/
def tokenize (s : String) : List (List Char) := tokenizeGo s.data []

/-- Python `str.lower()` restricted to ASCII, on a character list. -/
def lowerChars (l : List Char) : List Char := l.map Char.toLower

/-- Python `str.title()` on a character list: a letter is uppercased when the
previous character is not a letter, lowercased otherwise. -/
def pyTitleChars : List Char → Bool → List Char
  | [], _ => []
  | c :: cs, prevAlpha =>
    if isAsciiLetter c then
      (if prevAlpha then c.toLower else c.toUpper) :: pyTitleChars cs true
    else c :: pyTitleChars cs false

/-- Python `str.title()`. -/
def pyTitle (s : String) : String := String.mk (pyTitleChars s.data false)

/-- Whether `p` is a leading substring of `s` (Python `str.startswith`). -/
def charsLead : List Char → List Char → Bool
  | [], _ => true
  | _ :: _, [] => false
  | a :: as, b :: bs => a = b && charsLead as bs

/-- Python `s.startswith(p)`. -/
def pyStartsWith (s p : String) : Bool := charsLead p.data s.data

/-- Python `s.split("-")[0]`: the part of the string before the first dash. -/
def stripDash (s : String) : String := String.mk (s.data.takeWhile (fun c => c ≠ '-'))

/-- Python `s.split(".")[0]` on a character list. -/
def beforeDot (l : List Char) : List Char := l.takeWhile (fun c => c ≠ '.')

/-- Python `s[11:]` (used to strip the fixed `"Win.Trojan."` lead). -/
def pyDrop (s : String) (n : Nat) : String := String.mk (s.data.drop n)

/-! ## `distutils.version.StrictVersion`

`StrictVersion` accepts exactly the strings matching
`^(\d+)\.(\d+)(\.(\d+))?([ab](\d+))?$` and orders them by the numeric triple
(missing patch = 0), with a pre-release (`a`/`b` suffix) ordering strictly
below the same plain version, pre-releases compared by letter then number.
Any other string raises `ValueError`. -/

/-- Parsed `StrictVersion` value. -/
structure SVer where
  major : Nat
  minor : Nat
  patch : Nat
  pre : Option (Char × Nat)
deriving DecidableEq

/-- Numeric value of a digit run. -/
def natOfDigits (l : List Char) : Nat :=
  l.foldl (fun a c => 10 * a + (c.toNat - 48)) 0

/-- Parse one or more leading digits; return the value and the rest. -/
def parseDigits (l : List Char) : Option (Nat × List Char) :=
  let ds := l.takeWhile isAsciiDigit
  if ds = [] then none else some (natOfDigits ds, l.dropWhile isAsciiDigit)

/-- Parse the optional `[ab]\d+$` pre-release suffix (must consume the rest). -/
def parsePre (l : List Char) : Option (Option (Char × Nat)) :=
  match l with
  | [] => some none
  | c :: r =>
    if c = 'a' ∨ c = 'b' then
      match parseDigits r with
      | some (n, []) => some (some (c, n))
      | _ => none
    else none

/-- `StrictVersion(s)`: `some` of the parsed version, `none` when the
constructor would raise `ValueError`. -/
def parseStrictVersion (s : String) : Option SVer :=
  match parseDigits s.data with
  | none => none
  | some (maj, r1) =>
    match r1 with
    | '.' :: r2 =>
      match parseDigits r2 with
      | none => none
      | some (mnr, r3) =>
        let patchRest : Option (Nat × List Char) :=
          match r3 with
          | '.' :: r4 => parseDigits r4
          | _ => some (0, r3)
        match patchRest with
        | none => none
        | some (pat, r5) =>
          match parsePre r5 with
          | none => none
          | some pre => some ⟨maj, mnr, pat, pre⟩
    | _ => none

/-- `StrictVersion.__lt__`. -/
def svLT (a b : SVer) : Bool :=
  if a.major ≠ b.major then a.major < b.major
  else if a.minor ≠ b.minor then a.minor < b.minor
  else if a.patch ≠ b.patch then a.patch < b.patch
  else
    match a.pre, b.pre with
    | none, none => false
    | some _, none => true
    | none, some _ => false
    | some (c1, n1), some (c2, n2) => c1 < c2 || (c1 = c2 && n1 < n2)

/-! ## `RunSignatures._check_signature_version`

Source lines 275-319.  The running version and each declared bound are
dash-stripped and parsed as `StrictVersion`; a `ValueError` from either parse
is caught and the signature is skipped (`None`).  The result is `true`
(Python `True`) when the signature passes the gate. -/

/-- One bound gate: `StrictVersion(version) < StrictVersion(bound.split("-")[0])`
with `ValueError` mapped to rejection.  `reject v b` tells when the comparison
makes the signature incompatible. -/
def boundGate (version : String) (bound : String) (reject : SVer → SVer → Bool) : Bool :=
  match parseStrictVersion version, parseStrictVersion (stripDash bound) with
  | some v, some b => !reject v b
  | _, _ => false

/-- `RunSignatures._check_signature_version`, as a Boolean (`None` ↦ `false`,
`True` ↦ `true`).  `minimum`/`maximum` are `none` when the signature declares
no bound (the Python attributes default to `None`). -/
def checkSignatureVersion (cuckooVersion : String) (minimum maximum : Option String) : Bool :=
  let version := stripDash cuckooVersion
  let minOk :=
    match minimum with
    | none => true
    | some mn => boundGate version mn (fun v m => svLT v m)
  if !minOk then false
  else
    match maximum with
    | none => true
    | some mx => boundGate version mx (fun v m => svLT m v)

/-! ### Claim C7: the version gate -/

/-- A bound whose dash-stripped string does not parse always fails its gate. -/
lemma boundGate_badBound (v b : String) (r : SVer → SVer → Bool)
    (h : parseStrictVersion (stripDash b) = none) : boundGate v b r = false := by
  cases h2 : parseStrictVersion v <;> simp [boundGate, h, h2]

/-- A gate whose running version does not parse always fails. -/
lemma boundGate_badVersion (v b : String) (r : SVer → SVer → Bool)
    (h : parseStrictVersion v = none) : boundGate v b r = false := by
  cases h2 : parseStrictVersion (stripDash b) <;> simp [boundGate, h, h2]

/-- Evaluation of a gate when both sides parse. -/
lemma boundGate_eval (v b : String) (r : SVer → SVer → Bool) (x y : SVer)
    (hv : parseStrictVersion v = some x)
    (hb : parseStrictVersion (stripDash b) = some y) :
    boundGate v b r = !r x y := by
  simp [boundGate, hv, hb]

/-- **C7.** Version gating: a running version strictly below the signature's
minimum, or strictly above its maximum, under `StrictVersion` ordering makes
the check reject the signature; a malformed minimum or maximum bound also
makes it reject; a signature with no bounds, or with satisfied bounds,
passes.  The check is a total Boolean function, so no error escapes it. -/
theorem c7_version_gate :
    (∀ (ver mn : String) (mx : Option String) (v m : SVer),
      parseStrictVersion (stripDash ver) = some v →
      parseStrictVersion (stripDash mn) = some m →
      svLT v m = true →
      checkSignatureVersion ver (some mn) mx = false) ∧
    (∀ (ver mx : String) (mn : Option String) (v m : SVer),
      parseStrictVersion (stripDash ver) = some v →
      parseStrictVersion (stripDash mx) = some m →
      svLT m v = true →
      checkSignatureVersion ver mn (some mx) = false) ∧
    (∀ (ver mn : String) (mx : Option String),
      parseStrictVersion (stripDash mn) = none →
      checkSignatureVersion ver (some mn) mx = false) ∧
    (∀ (ver mx : String) (mn : Option String),
      parseStrictVersion (stripDash mx) = none →
      checkSignatureVersion ver mn (some mx) = false) ∧
    (∀ ver : String, checkSignatureVersion ver none none = true) ∧
    (∀ (ver mn mx : String) (v a b : SVer),
      parseStrictVersion (stripDash ver) = some v →
      parseStrictVersion (stripDash mn) = some a →
      parseStrictVersion (stripDash mx) = some b →
      svLT v a = false → svLT b v = false →
      checkSignatureVersion ver (some mn) (some mx) = true) := by
  refine ⟨?_, ?_, ?_, ?_, ?_, ?_⟩
  · intro ver mn mx v m hv hm hlt
    simp [checkSignatureVersion, boundGate_eval _ _ _ _ _ hv hm, hlt]
  · intro ver mx mn v m hv hm hlt
    cases mn with
    | none => simp [checkSignatureVersion, boundGate_eval _ _ _ _ _ hv hm, hlt]
    | some mns =>
      by_cases hgate : boundGate (stripDash ver) mns (fun v m => svLT v m) = true
      · simp [checkSignatureVersion, hgate, boundGate_eval _ _ _ _ _ hv hm, hlt]
      · simp only [Bool.not_eq_true] at hgate
        simp [checkSignatureVersion, hgate]
  · intro ver mn mx hm
    simp [checkSignatureVersion, boundGate_badBound _ _ _ hm]
  · intro ver mx mn hm
    cases mn with
    | none => simp [checkSignatureVersion, boundGate_badBound _ _ _ hm]
    | some mns =>
      by_cases hgate : boundGate (stripDash ver) mns (fun v m => svLT v m) = true
      · simp [checkSignatureVersion, hgate, boundGate_badBound _ _ _ hm]
      · simp only [Bool.not_eq_true] at hgate
        simp [checkSignatureVersion, hgate]
  · intro ver
    simp [checkSignatureVersion]
  · intro ver mn mx v a b hv ha hb h1 h2
    simp [checkSignatureVersion, boundGate_eval _ _ _ _ _ hv ha,
      boundGate_eval _ _ _ _ _ hv hb, h1, h2]

/-- Witness for C7: running version `"1.5"` against minimum `"2.0"` is
rejected, the gate applied at concrete inputs. -/
theorem c7_version_gate_witness :
    checkSignatureVersion "1.5" (some "2.0") none = false :=
  c7_version_gate.1 "1.5" "2.0" none ⟨1, 5, 0, none⟩ ⟨2, 0, 0, none⟩
    (by decide) (by decide) (by decide)

/-! ## Capability registry (source lines 32, 67-76)

`_modules = defaultdict(dict)`: looking up a missing group key through
`_modules[group]` (as `list_plugins` does) inserts an **empty dict** built by
the default factory.  `register_plugin` uses `_modules.setdefault(group, [])`,
which returns the existing value when the key is present — including a dict
inserted earlier by the factory — and then calls `.append` on it, which only
lists support. -/

/-- A value stored under a group key: either the empty `dict` produced by the
`defaultdict` factory, or a list of registered plugin names. -/
inductive Bucket where
  | emptyDict : Bucket
  | plugins : List String → Bucket
deriving DecidableEq

/-- The `_modules` mapping, as an association list. -/
abbrev Registry := List (String × Bucket)

/-- Mapping lookup. -/
def regLookup : Registry → String → Option Bucket
  | [], _ => none
  | (k, b) :: r, g => if k = g then some b else regLookup r g

/-- Write a key (overwrite when present, append when absent). -/
def regSet : Registry → String → Bucket → Registry
  | [], g, b => [(g, b)]
  | (k, v) :: r, g, b => if k = g then (g, b) :: r else (k, v) :: regSet r g b

/-- `list_plugins(group)` (source lines 72-76): `_modules[group]` on the
`defaultdict` returns the stored bucket, inserting (and returning) an empty
dict when the group is missing.  The possibly-grown mapping is returned
alongside the bucket. -/
def list_plugins (r : Registry) (g : String) : Registry × Bucket :=
  match regLookup r g with
  | some b => (r, b)
  | none => (regSet r g .emptyDict, .emptyDict)

/-- `register_plugin(group, name)` (source lines 67-70):
`_modules.setdefault(group, []).append(name)`.  When the stored bucket is the
factory's dict, `.append` raises `AttributeError`. -/
def register_plugin (r : Registry) (g : String) (name : String) : Except PyError Registry :=
  match regLookup r g with
  | some (.plugins l) => .ok (regSet r g (.plugins (l ++ [name])))
  | some .emptyDict => .error .attributeError
  | none => .ok (regSet r g (.plugins [name]))

/-! ## Auxiliary controller `RunAuxiliary` (source lines 78-138) -/

/-- Outcome of an auxiliary module's `start()` hook. -/
inductive StartRes where
  | ok : StartRes
  | nie : StartRes
  | exc : StartRes
deriving DecidableEq

/-- An auxiliary module descriptor.  `config` is `none` when the module has
no section in `auxiliary.conf` (a `CuckooOperationalError` from `cfg.get`),
otherwise `some` of its `enabled` flag. -/
structure AuxModule where
  name : String
  ctor_fails : Bool
  config : Option Bool
  start_res : StartRes
deriving DecidableEq

/-- Observable events of one auxiliary start/stop cycle. -/
inductive AuxEvent where
  | ctorFail : String → AuxEvent
  | configMissing : String → AuxEvent
  | disabled : String → AuxEvent
  | startOk : String → AuxEvent
  | startNie : String → AuxEvent
  | startErr : String → AuxEvent
  | stopCall : String → AuxEvent
deriving DecidableEq

/-- `RunAuxiliary.start` (source lines 87-126).  Returns the `self.enabled`
list and the event log.  A constructor failure executes `return`, aborting the
whole loop — the remaining modules are not visited.  A `start()` hook that
raises `NotImplementedError` is passed over, and one that raises anything else
is logged; in both cases the `else` branch does not run, so the module is
*not* added to `self.enabled`. -/
def auxStartGo : List AuxModule → List AuxModule × List AuxEvent
  | [] => ([], [])
  | m :: rest =>
    if m.ctor_fails then ([], [.ctorFail m.name])
    else
      match m.config with
      | none =>
        let (e, lg) := auxStartGo rest
        (e, .configMissing m.name :: lg)
      | some false =>
        let (e, lg) := auxStartGo rest
        (e, .disabled m.name :: lg)
      | some true =>
        match m.start_res with
        | .ok =>
          let (e, lg) := auxStartGo rest
          (m :: e, .startOk m.name :: lg)
        | .nie =>
          let (e, lg) := auxStartGo rest
          (e, .startNie m.name :: lg)
        | .exc =>
          let (e, lg) := auxStartGo rest
          (e, .startErr m.name :: lg)

/-- `RunAuxiliary.stop` (source lines 128-138): iterate `self.enabled` (only),
invoking each module's `stop()` once; failures are logged and do not abort. -/
def auxStop (enabled : List AuxModule) : List AuxEvent :=
  enabled.map (fun m => .stopCall m.name)

/-- One full `start()`-then-`stop()` cycle: the concatenated event log. -/
def auxCycle (mods : List AuxModule) : List AuxEvent :=
  let (enabled, lg) := auxStartGo mods
  lg ++ auxStop enabled

/-- The modules `start()` leaves in `self.enabled`: of the prefix before the
first constructor failure, those with an enabled configuration section whose
start hook succeeded. -/
lemma auxStartGo_enabled (mods : List AuxModule) :
    (auxStartGo mods).1 =
      (mods.takeWhile (fun m => !m.ctor_fails)).filter
        (fun m => m.config == some true && m.start_res == StartRes.ok) := by
  induction mods with
  | nil => rfl
  | cons m rest ih =>
    by_cases hc : m.ctor_fails
    · simp [auxStartGo, hc, List.takeWhile]
    · rcases hcfg : m.config with _ | b
      · simp [auxStartGo, hc, hcfg, List.takeWhile, List.filter, ih]
      · cases b
        · simp [auxStartGo, hc, hcfg, List.takeWhile, List.filter, ih]
        · cases hs : m.start_res <;>
            simp [auxStartGo, hc, hcfg, hs, List.takeWhile, List.filter, ih]

/-- The start log never contains a stop event. -/
lemma auxStartGo_no_stop (mods : List AuxModule) (n : String) :
    AuxEvent.stopCall n ∉ (auxStartGo mods).2 := by
  induction mods with
  | nil => simp [auxStartGo]
  | cons m rest ih =>
    by_cases hc : m.ctor_fails
    · simp [auxStartGo, hc]
    · rcases hcfg : m.config with _ | b
      · simpa [auxStartGo, hc, hcfg] using ih
      · cases b
        · simpa [auxStartGo, hc, hcfg] using ih
        · cases hs : m.start_res <;> simpa [auxStartGo, hc, hcfg, hs] using ih

/-- A `startOk` event is logged exactly for the modules in `self.enabled`. -/
lemma auxStartGo_startOk_mem (mods : List AuxModule) (n : String) :
    AuxEvent.startOk n ∈ (auxStartGo mods).2 ↔
      n ∈ (auxStartGo mods).1.map (fun m => m.name) := by
  induction mods with
  | nil => simp [auxStartGo]
  | cons m rest ih =>
    by_cases hc : m.ctor_fails
    · simp [auxStartGo, hc]
    · rcases hcfg : m.config with _ | b
      · simpa [auxStartGo, hc, hcfg] using ih
      · cases b
        · simpa [auxStartGo, hc, hcfg] using ih
        · cases hs : m.start_res <;> simp [auxStartGo, hc, hcfg, hs, ih]

/-- The enabled list's names form a sublist of the registry's names. -/
lemma auxStartGo_names_sublist (mods : List AuxModule) :
    ((auxStartGo mods).1.map (fun m => m.name)).Sublist
      (mods.map (fun m => m.name)) := by
  rw [auxStartGo_enabled]
  exact ((List.filter_sublist _).trans (List.takeWhile_sublist _)).map _

/-! ## Processing pipeline `RunProcessing` (source lines 140-244) -/

/-- Outcome of a processing module's `run()`. -/
inductive PRunRes where
  | ok : String → PRunRes
  | depErr : PRunRes
  | procErr : PRunRes
  | exc : PRunRes
deriving DecidableEq

/-- A processing module descriptor (`config` as for `AuxModule`). -/
structure ProcModule where
  name : String
  order : Int
  ctor_fails : Bool
  config : Option Bool
  key : String
  run_res : PRunRes
deriving DecidableEq

/-- The observable state built by `RunProcessing.run`: the merged
single-key contributions, the per-module statistics entries (names of the
timed records appended on success) and the modules whose `run()` was
invoked. -/
structure ProcOutput where
  extra : List (String × String)
  stats : List String
  invoked : List String
deriving DecidableEq

/-- `dict.update({key: v})`: overwrite the key when present, append it
otherwise. -/
def assocUpdate : List (String × String) → String → String → List (String × String)
  | [], k, v => [(k, v)]
  | (k2, v2) :: r, k, v =>
    if k2 = k then (k, v) :: r else (k2, v2) :: assocUpdate r k v

/-- Stable insertion of `x` into a list already sorted by `key`: `x` goes
before every element whose key is not smaller, so elements with equal keys
keep their original relative order (Python's sort is stable). -/
def insertByKey (key : α → Int) (x : α) : List α → List α
  | [] => [x]
  | y :: ys => if key y < key x then y :: insertByKey key x ys else x :: y :: ys

/-- Stable sort by an integer key (`list.sort(key=...)`). -/
def sortByKey (key : α → Int) (l : List α) : List α :=
  l.foldr (insertByKey key) []

/-- `RunProcessing.process` (source lines 155-218) applied to the running
output: a constructor failure, a missing configuration section or a disabled
module contributes nothing; otherwise `run()` is invoked; only a successful
`run()` appends a statistics record and returns its `{key: data}`
contribution, which `run` merges with `results.update`.  Every failure is
caught inside `process`, so the pipeline never aborts. -/
def processOne (out : ProcOutput) (m : ProcModule) : ProcOutput :=
  if m.ctor_fails then out
  else
    match m.config with
    | none => out
    | some false => out
    | some true =>
      match m.run_res with
      | .ok v =>
        { extra := assocUpdate out.extra m.key v
          stats := out.stats ++ [m.name]
          invoked := out.invoked ++ [m.name] }
      | _ => { out with invoked := out.invoked ++ [m.name] }

/-- `RunProcessing.run` (source lines 220-244): sort the registered modules by
`order` (stable) and run each through `process`, merging the results. -/
def runProcessingRun (mods : List ProcModule) (init : ProcOutput) : ProcOutput :=
  (sortByKey (fun m => m.order) mods).foldl processOne init

/-- Which modules get their `run()` invoked: a fold of `processOne` invokes
exactly the constructible, configured, enabled modules — regardless of the
constructor failures around them. -/
lemma foldl_processOne_invoked (l : List ProcModule) (out : ProcOutput) :
    (l.foldl processOne out).invoked =
      out.invoked ++
        (l.filter (fun m => !m.ctor_fails && m.config == some true)).map
          (fun m => m.name) := by
  induction l generalizing out with
  | nil => simp
  | cons m rest ih =>
    by_cases hc : m.ctor_fails
    · simp [processOne, hc, ih]
    · rcases hcfg : m.config with _ | b
      · simp [processOne, hc, hcfg, ih]
      · cases b
        · simp [processOne, hc, hcfg, ih]
        · cases hr : m.run_res <;> simp [processOne, hc, hcfg, hr, ih]

/-! ## Signature engine `RunSignatures` (source lines 246-568)

Data model of one Result Aggregate, as far as `RunSignatures.run` reads it.
Telemetry keys that the code tests with `in` are `Option` fields; `none`
means the key is absent. -/

/-- One intercepted API call (a Call Record).  `id` is the capture ordinal,
used only to identify calls in the instrumentation log. -/
structure Call where
  api : String
  category : String
  id : Nat
deriving DecidableEq

/-- One Process Record together with the state of its shared `ParseProcessLog`
iterator: `calls` is the underlying finite sequence and `pos` the cursor.
Iterating `proc["calls"]` yields the calls from `pos` on and leaves the cursor
at the end; `reset()` puts the cursor back to the start. -/
structure ProcState where
  process_name : String
  calls : List Call
  pos : Nat
deriving DecidableEq

/-- One entry of `results["virustotal"]["results"]`. -/
structure VTRes where
  sig : String
  vendor : String
deriving DecidableEq

/-- The Result Aggregate fields read by `RunSignatures.run`.
`suricata_alerts` holds the `alert["signature"]` strings (an alert with a
missing or empty `signature` key is the empty string, which the code treats
identically); `clamav` is `results["target"]["file"]["clamav"]`. -/
structure Results where
  target_category : String
  info_category : String
  behavior : Option (List ProcState)
  virustotal_results : Option (List VTRes)
  suricata_alerts : Option (List String)
  clamav : Option String
deriving DecidableEq

/-- A Match Record, as produced by `Signature.as_result()`. -/
structure Match where
  name : String
  severity : Int
  confidence : Int
  weight : Int
  families : List String
deriving DecidableEq

/-- Outcome of an evented signature hook (`on_call` / `on_complete`):
`inconclusive` is Python `None`, `matched` is `True`, `notmatched` is `False`,
`nie` raises `NotImplementedError` and `exc` raises anything else. -/
inductive HookRes where
  | inconclusive : HookRes
  | matched : HookRes
  | notmatched : HookRes
  | nie : HookRes
  | exc : HookRes
deriving DecidableEq

/-- Outcome of a batch signature's `run()`: a returned truthiness, a
`NotImplementedError` or another exception. -/
inductive SigRunRes where
  | ret : Bool → SigRunRes
  | nie : SigRunRes
  | exc : SigRunRes
deriving DecidableEq

/-- A signature class as registered in the `"signatures"` group.  The
behavioural fields describe what the signature's hooks do when invoked:
`on_call` maps the call and its owning process to the hook's outcome,
`on_complete` is the completion hook's outcome, `run_res` the batch `run()`
outcome and `run_consumes` whether `run()` iterates the call logs to their
end.  `ctor_fails` marks a class whose constructor raises. -/
structure SigClass where
  name : String
  enabled : Bool
  evented : Bool
  order : Int
  minimum : Option String
  maximum : Option String
  filter_analysistypes : List String
  filter_processnames : List String
  filter_apinames : List String
  filter_categories : List String
  severity : Int
  confidence : Int
  weight : Int
  families : List String
  ctor_fails : Bool
  on_call : Call → ProcState → HookRes
  on_complete : HookRes
  run_res : SigRunRes
  run_consumes : Bool

/-- A constructed signature instance.  The wrapper records that an instance
is a *different Python object* from its class: the test
`sig in complete_list` at source lines 433 and 457 compares an instance
against a list of classes and is therefore always false, so the attempted
`complete_list.remove(sig)` never executes and is not modelled. -/
structure SigInst where
  cls : SigClass

/-- Instrumentation log of one `RunSignatures.run`: which hook was invoked on
what.  `batchRun` records, per process, the call ids still visible through
the shared cursor at the moment the batch `run()` is invoked. -/
inductive Event where
  | onCall : String → Nat → Event
  | onComplete : String → Event
  | batchRun : String → List (List Nat) → Event
deriving DecidableEq

/-- `Signature.as_result()`. -/
def mkMatch (s : SigClass) : Match :=
  ⟨s.name, s.severity, s.confidence, s.weight, s.families⟩

/-- The eligibility test of the evented-list comprehension (source lines
379-382): enabled, evented, version-valid, and the target-category filter (if
any) contains the task's category. -/
def eventedGuard (ver : String) (res : Results) (s : SigClass) : Bool :=
  s.enabled && s.evented && checkSignatureVersion ver s.minimum s.maximum &&
    (s.filter_analysistypes.isEmpty || s.filter_analysistypes.contains res.target_category)

/-- The evented-list comprehension `[sig(self.results) for sig in
complete_list if ...]` (source lines 379-382).  Construction is *not* guarded
by any handler: a constructor that raises escapes `run()`. -/
def buildEventedList (ver : String) (res : Results) : List SigClass → Except PyError (List SigInst)
  | [] => .ok []
  | s :: rest =>
    if eventedGuard ver res s then
      if s.ctor_fails then .error (.ctorError s.name)
      else
        match buildEventedList ver res rest with
        | .error e => .error e
        | .ok l => .ok (⟨s⟩ :: l)
    else buildEventedList ver res rest

/-- The per-call filter checks (source lines 404-409): skip the signature for
this call when a declared process-name, API-name or call-category filter is
not satisfied. -/
def sigSkipsCall (s : SigClass) (c : Call) (p : ProcState) : Bool :=
  (!s.filter_processnames.isEmpty && !s.filter_processnames.contains p.process_name) ||
  (!s.filter_apinames.isEmpty && !s.filter_apinames.contains c.api) ||
  (!s.filter_categories.isEmpty && !s.filter_categories.contains c.category)

/-- The inner loop `for sig in evented_list:` for one call (source lines
402-438), with CPython's index-based list iterator: the iterator keeps a
plain index into the (mutated) list; `evented_list.remove(sig)` shifts the
elements after `sig` one slot left while the index still advances, so the
element that followed `sig` is not visited for this call.  A `matched` hook
appends the Match Record; any terminal outcome (`True`, `False`, or an
exception, which is caught and treated as `False`) removes the instance.
`fuel` only bounds the recursion; `length + 1` steps always suffice because
the index grows by one per step and the list never grows. -/
def dispatchCall (c : Call) (p : ProcState) :
    Nat → List SigInst → Nat → List SigInst × List Match × List Event
  | 0, L, _ => (L, [], [])
  | fuel + 1, L, i =>
    if h : i < L.length then
      let s := (L.get ⟨i, h⟩).cls
      if sigSkipsCall s c p then dispatchCall c p fuel L (i + 1)
      else
        match s.on_call c p with
        | .inconclusive =>
          let (L2, ms, ev) := dispatchCall c p fuel L (i + 1)
          (L2, ms, .onCall s.name c.id :: ev)
        | .matched =>
          let (L2, ms, ev) := dispatchCall c p fuel (L.eraseIdx i) (i + 1)
          (L2, mkMatch s :: ms, .onCall s.name c.id :: ev)
        | _ =>
          let (L2, ms, ev) := dispatchCall c p fuel (L.eraseIdx i) (i + 1)
          (L2, ms, .onCall s.name c.id :: ev)
    else (L, [], [])

/-- The `for call in proc["calls"]:` loop of the evented pass for one
process. -/
def callsLoop (p : ProcState) : List Call → List SigInst → List SigInst × List Match × List Event
  | [], L => (L, [], [])
  | c :: cs, L =>
    let (L1, m1, e1) := dispatchCall c p (L.length + 1) L 0
    let (L2, m2, e2) := callsLoop p cs L1
    (L2, m1 ++ m2, e1 ++ e2)

/-- The `for proc in self.results["behavior"]["processes"]:` loop (source
lines 399-438).  Iterating `proc["calls"]` consumes the shared cursor: the
calls from `pos` on are seen and the cursor is left at the end. -/
def procsLoop : List ProcState → List SigInst → List SigInst × List ProcState × List Match × List Event
  | [], L => (L, [], [], [])
  | p :: ps, L =>
    let (L1, m1, e1) := callsLoop p (p.calls.drop p.pos) L
    let (L2, ps2, m2, e2) := procsLoop ps L1
    (L2, { p with pos := p.calls.length } :: ps2, m1 ++ m2, e1 ++ e2)

/-- The `on_complete` loop over the remaining instances (source lines
440-458): every unresolved evented signature receives exactly one completion
invocation; `True` appends the Match Record, `NotImplementedError` and other
exceptions just continue. -/
def completePass : List SigInst → List Match × List Event
  | [] => ([], [])
  | s :: rest =>
    let (m, ev) := completePass rest
    match s.cls.on_complete with
    | .matched => (mkMatch s.cls :: m, .onComplete s.cls.name :: ev)
    | _ => (m, .onComplete s.cls.name :: ev)

/-- Reset every process's call cursor (`process["calls"].reset()`). -/
def resetProcs (procs : List ProcState) : List ProcState :=
  procs.map (fun p => { p with pos := 0 })

/-- Leave every cursor at the end (a `run()` that consumed the logs). -/
def consumeProcs (procs : List ProcState) : List ProcState :=
  procs.map (fun p => { p with pos := p.calls.length })

/-- The call ids visible through each process's cursor. -/
def viewProcs (procs : List ProcState) : List (List Nat) :=
  procs.map (fun p => (p.calls.drop p.pos).map (fun c => c.id))

/-- The full call-id sequences, cursor ignored. -/
def fullViewProcs (procs : List ProcState) : List (List Nat) :=
  procs.map (fun p => p.calls.map (fun c => c.id))

/-- `RunSignatures.process` for one batch signature (source lines 321-369),
acting on the optional behavior state: a constructor failure, a disabled
signature or a failed version check contribute nothing (all caught); then
`run()` is invoked — recorded with the cursor view it observes — possibly
consuming the call logs, and only a truthy return yields a Match Record. -/
def processBatch (ver : String) (s : SigClass) (procs : Option (List ProcState)) :
    Option Match × Option (List ProcState) × List Event :=
  if s.ctor_fails then (none, procs, [])
  else if !s.enabled then (none, procs, [])
  else if !checkSignatureVersion ver s.minimum s.maximum then (none, procs, [])
  else
    let obs := viewProcs (procs.getD [])
    let procs2 := if s.run_consumes then procs.map consumeProcs else procs
    match s.run_res with
    | .ret true => (some (mkMatch s), procs2, [.batchRun s.name obs])
    | _ => (none, procs2, [.batchRun s.name obs])

/-- The batch loop (source lines 477-487): each remaining class whose
target-category filter accepts the task is run through `process`; afterwards
— inside the same iteration, and only when the aggregate has behavioral
telemetry — every process's cursor is reset. -/
def batchLoop (ver : String) (cat : String) :
    List SigClass → Option (List ProcState) → List Match →
      List Match × Option (List ProcState) × List Event
  | [], procs, m => (m, procs, [])
  | s :: rest, procs, m =>
    if s.filter_analysistypes.isEmpty || s.filter_analysistypes.contains cat then
      let (mt, procs2, ev) := processBatch ver s procs
      let m2 := match mt with
        | some x => m ++ [x]
        | none => m
      let procs3 := procs2.map resetProcs
      let (m3, procs4, ev2) := batchLoop ver cat rest procs3 m2
      (m3, procs4, ev ++ ev2)
    else batchLoop ver cat rest procs m

/-! ### Score and family aggregation (source lines 489-568) -/

/-- `malscore` (source lines 493-503): fold the matches, adding
`weight * 0.5 * confidence/100` for severity 1 and
`weight * (severity-1) * confidence/100` otherwise, then clamp the result to
at most `10.0` and at least `0.0`. -/
def computeMalscore (matched : List Match) : ℚ :=
  let s := matched.foldl (fun acc m =>
    if m.severity = 1 then acc + (m.weight : ℚ) * (1 / 2) * ((m.confidence : ℚ) / 100)
    else acc + (m.weight : ℚ) * ((m.severity : ℚ) - 1) * ((m.confidence : ℚ) / 100)) 0
  let s2 := if s > 10 then (10 : ℚ) else s
  if s2 < 0 then 0 else s2

/-- Waterfall rule 1 (source lines 507-510): the first match with a
non-empty family list contributes its first family, title-cased. -/
def famFromMatches : List Match → String
  | [] => ""
  | m :: rest =>
    match m.families with
    | [] => famFromMatches rest
    | f :: _ => pyTitle f

/-- The VirusTotal guard (source line 511): category `"file"` and a present,
non-empty `virustotal.results` list. -/
def vtGuard (res : Results) : Bool :=
  res.info_category == "file" &&
    (match res.virustotal_results with
     | some l => !l.isEmpty
     | none => false)

/-- Build `detectnames` (source lines 512-518): each non-empty detection name
once, plus once more when its vendor is Microsoft (the deliberate
double-weighting). -/
def vtDetectNames (l : List VTRes) : List String :=
  l.foldl (fun acc r =>
    if r.sig ≠ "" then
      acc ++ (if r.vendor == "Microsoft" then [r.sig, r.sig] else [r.sig])
    else acc) []

/-- The Suricata guard (source line 522): a present, non-empty alert list. -/
def suricataGuard (res : Results) : Bool :=
  match res.suricata_alerts with
  | some l => !l.isEmpty
  | none => false

/-- The fixed blocklist of generic terms (source lines 533-554). -/
def suricataBlacklist : List String :=
  ["upx", "executable", "potential", "likely", "rogue", "supicious",
   "generic", "possible", "known", "common", "troj", "trojan", "team",
   "probably", "w2km", "http", "abuse.ch", "win32", "unknown", "single"]

/-- One iteration of the Suricata alert loop (source lines 523-562) on the
running `family` value.  For a trojan-prefixed alert signature the third
token (`words[2]`) is taken — `IndexError` when there are fewer than three —
or the fourth when the third is `win32`; a blocklisted candidate leaves
`family` unchanged, otherwise `family` becomes the candidate up to its first
dot, title-cased (note: it is overwritten even by an empty candidate, and the
loop has no `break`). -/
def famSuricataStep (fam : String) (alertSig : String) : Except PyError String :=
  if alertSig ≠ "" &&
      (pyStartsWith alertSig "ET TROJAN" || pyStartsWith alertSig "ETPRO TROJAN") then
    let words := tokenize alertSig
    match words.get? 2 with
    | none => .error .indexError
    | some w2 =>
      let pick : Except PyError (List Char) :=
        if lowerChars w2 = "win32".data then
          match words.get? 3 with
          | none => .error .indexError
          | some w3 => .ok w3
        else .ok w2
      match pick with
      | .error e => .error e
      | .ok fc =>
        if suricataBlacklist.any (fun b => b.data = lowerChars fc) then .ok fam
        else .ok (String.mk (pyTitleChars (beforeDot fc) false))
  else .ok fam

/-- The full `for alert in alerts:` loop, threading `family`. -/
def famSuricataFold : List String → String → Except PyError String
  | [], fam => .ok fam
  | a :: rest, fam =>
    match famSuricataStep fam a with
    | .error e => .error e
    | .ok fam2 => famSuricataFold rest fam2

/-- The ClamAV guard (source line 565): category `"file"`, a present,
non-empty `clamav` string starting with `"Win.Trojan."`. -/
def clamavGuard (res : Results) : Bool :=
  res.info_category == "file" &&
    (match res.clamav with
     | some s => s ≠ "" && pyStartsWith s "Win.Trojan."
     | none => false)

/-- The ClamAV fallback value `clamav[11:]` (source line 566). -/
def clamavFam (res : Results) : String :=
  match res.clamav with
  | some s => pyDrop s 11
  | none => ""

/-- `malfamily` (source lines 505-568), transcribed sequentially: `family`
starts empty; each block runs only while `family` is still empty. -/
def computeMalfamily (res : Results) (matched : List Match) (vtC : List String → String) :
    Except PyError String :=
  let family := famFromMatches matched
  let family :=
    if family == "" && vtGuard res then
      vtC (vtDetectNames (res.virustotal_results.getD []))
    else family
  match (if family == "" && suricataGuard res then
          famSuricataFold (res.suricata_alerts.getD []) family
        else .ok family) with
  | .error e => .error e
  | .ok family2 =>
    .ok (if family2 == "" && clamavGuard res then clamavFam res else family2)

/-- The final outcome of one `RunSignatures.run`. -/
structure SigRunOut where
  signatures : List Match
  malscore : ℚ
  malfamily : String
  events : List Event
deriving DecidableEq

/-- The tail of `RunSignatures.run` after the matches are collected and
sorted: compute the score, resolve the family (the only failing step here)
and assemble the final aggregate fields. -/
def finishSignatures (res : Results) (vtC : List String → String)
    (sortedM : List Match) (evAll : List Event) : Except PyError SigRunOut :=
  match computeMalfamily res sortedM vtC with
  | .error e => .error e
  | .ok fam =>
    .ok { signatures := sortedM, malscore := computeMalscore sortedM,
          malfamily := fam, events := evAll }

/-- `RunSignatures.run` (source lines 371-568).  The overlay file is absent
(`_load_overlay` returns `{}` on `IOError`), so overlay application is the
identity and is not modelled further.  The statistics bookkeeping records
wall-clock timings only and is not modelled.  The evented pass runs only when
the evented list is non-empty and the aggregate has a `"behavior"` key; the
batch pass runs over the *entire* registered class list sorted by `order`
(see `SigInst` for why no class was removed from it), resetting the call
cursors after each batch signature. -/
def runSignaturesRun (ver : String) (registry : List SigClass) (res : Results)
    (vtC : List String → String) : Except PyError SigRunOut :=
  match buildEventedList ver res registry with
  | .error e => .error e
  | .ok evl =>
    let (matchedE, procsAfter, evEv) :=
      match res.behavior with
      | some procs =>
        if evl.isEmpty then (([] : List Match), some procs, ([] : List Event))
        else
          let (L1, procs1, m1, e1) := procsLoop procs evl
          let (m2, e2) := completePass L1
          (m1 ++ m2, some procs1, e1 ++ e2)
      | none => ([], none, [])
    let (matchedAll, _procsFinal, evB) :=
      if registry.isEmpty then (matchedE, procsAfter, ([] : List Event))
      else batchLoop ver res.target_category (sortByKey (fun s => s.order) registry)
        procsAfter matchedE
    finishSignatures res vtC (sortByKey (fun m => m.severity) matchedAll) (evEv ++ evB)

/-- `RunReporting.__init__` (source lines 578-587): before anything else it
iterates `results["behavior"]["processes"]` to call `begin_reporting()` on
each call log; an aggregate without the `"behavior"` key raises `KeyError`
out of the constructor.  `begin_reporting` itself is defined outside this
source file and does not affect the fields modelled here. -/
def runReportingInit (res : Results) : Except PyError Results :=
  match res.behavior with
  | none => .error .keyError
  | some _ => .ok res

/-! ### Claim C6: the score -/

/-- The per-match contribution, written as the specification states it. -/
def specContribution (m : Match) : ℚ :=
  if m.severity = 1 then (m.weight : ℚ) * (1 / 2) * ((m.confidence : ℚ) / 100)
  else (m.weight : ℚ) * ((m.severity : ℚ) - 1) * ((m.confidence : ℚ) / 100)

/-- Folding an addition is summing. -/
lemma foldl_add_eq (f : Match → ℚ) (l : List Match) (a : ℚ) :
    l.foldl (fun acc m => acc + f m) a = a + (l.map f).sum := by
  induction l generalizing a with
  | nil => simp
  | cons m rest ih =>
    rw [List.foldl_cons, ih, List.map_cons, List.sum_cons]
    ring

/-- The score fold accumulates exactly the sum of the contributions. -/
lemma computeMalscore_foldl (l : List Match) (a : ℚ) :
    (l.foldl (fun acc m =>
      if m.severity = 1 then acc + (m.weight : ℚ) * (1 / 2) * ((m.confidence : ℚ) / 100)
      else acc + (m.weight : ℚ) * ((m.severity : ℚ) - 1) * ((m.confidence : ℚ) / 100)) a) =
      a + (l.map specContribution).sum := by
  have hfun : (fun (acc : ℚ) (m : Match) =>
      if m.severity = 1 then acc + (m.weight : ℚ) * (1 / 2) * ((m.confidence : ℚ) / 100)
      else acc + (m.weight : ℚ) * ((m.severity : ℚ) - 1) * ((m.confidence : ℚ) / 100)) =
      (fun acc m => acc + specContribution m) := by
    funext acc m
    by_cases h : m.severity = 1 <;> simp [specContribution, h]
  rw [hfun, foldl_add_eq]

/-- The two sequential clamping conditionals equal a `[0, 10]` clamp. -/
lemma clamp_eq (s : ℚ) :
    (if (if s > 10 then (10 : ℚ) else s) < 0 then 0 else if s > 10 then (10 : ℚ) else s) =
      max 0 (min 10 s) := by
  by_cases h1 : s > 10
  · rw [if_pos h1, if_neg (by norm_num), min_eq_left (le_of_lt h1),
      max_eq_right (by norm_num)]
  · rw [if_neg h1, min_eq_right (le_of_not_lt h1)]
    by_cases h2 : s < 0
    · rw [if_pos h2, max_eq_left (le_of_lt h2)]
    · rw [if_neg h2, max_eq_right (le_of_not_lt h2)]

/-- **C6.** `malscore` is the clamp to `[0, 10]` of the sum over matches of
`weight * 0.5 * (confidence/100)` for severity 1 and
`weight * (severity-1) * (confidence/100)` otherwise; the two concrete single
matches of the specification score exactly `1.0` and `2.0`, and the score
never exceeds `10.0`. -/
theorem c6_malscore :
    (∀ l : List Match,
      computeMalscore l = max 0 (min 10 ((l.map specContribution).sum))) ∧
    computeMalscore [⟨"s1", 1, 100, 2, []⟩] = 1 ∧
    computeMalscore [⟨"s2", 3, 50, 2, []⟩] = 2 ∧
    (∀ l : List Match, computeMalscore l ≤ 10) := by
  have key : ∀ l : List Match,
      computeMalscore l = max 0 (min 10 ((l.map specContribution).sum)) := by
    intro l
    unfold computeMalscore
    rw [computeMalscore_foldl l 0, zero_add, clamp_eq]
  refine ⟨key, ?_, ?_, ?_⟩
  · rw [key]
    have : (([⟨"s1", 1, 100, 2, []⟩] : List Match).map specContribution).sum = 1 := by
      norm_num [specContribution]
    rw [this]
    norm_num
  · rw [key]
    have : (([⟨"s2", 3, 50, 2, []⟩] : List Match).map specContribution).sum = 2 := by
      norm_num [specContribution]
    rw [this]
    norm_num
  · intro l
    rw [key]
    rcases le_or_lt ((l.map specContribution).sum) 10 with h | h
    · calc max 0 (min 10 ((l.map specContribution).sum)) ≤ max 0 (10 : ℚ) := by
            exact max_le_max (le_refl 0) (min_le_left _ _)
        _ = 10 := by norm_num
    · rw [min_eq_left (le_of_lt h)]
      norm_num

/-! ### Claim C5: the family waterfall -/

/-- The specification's waterfall, stated rule by rule with a fixed priority:
rule 1 is the first severity-ascending match with families, rule 2 the
reputation consensus (for category `"file"` with results present), rule 3 the
Suricata token heuristic, rule 4 the ClamAV prefix-strip (for category
`"file"`); the first rule yielding a non-empty name wins, otherwise the
family is empty. -/
def malfamilySpec (res : Results) (matched : List Match) (vtC : List String → String) :
    Except PyError String :=
  let r1 := famFromMatches matched
  let r2 := if vtGuard res then vtC (vtDetectNames (res.virustotal_results.getD [])) else ""
  let r3 : Except PyError String :=
    if suricataGuard res then famSuricataFold (res.suricata_alerts.getD []) "" else .ok ""
  let r4 := if clamavGuard res then clamavFam res else ""
  if r1 ≠ "" then .ok r1
  else if r2 ≠ "" then .ok r2
  else
    match r3 with
    | .error e => .error e
    | .ok f3 => if f3 ≠ "" then .ok f3 else .ok r4

/-- **C5.** `malfamily` is resolved by the fixed-priority waterfall: a match
with a non-empty family list (first in severity-ascending order, title-cased
first entry) wins over the reputation consensus (category `"file"`, results
present, one trusted vendor double-counted), which wins over the Suricata
token heuristic, which wins over the ClamAV `"Win.Trojan."` prefix-strip
(category `"file"`); when no rule yields a non-empty name the family is the
empty string. -/
theorem c5_malfamily_waterfall (res : Results) (matched : List Match)
    (vtC : List String → String) :
    computeMalfamily res matched vtC = malfamilySpec res matched vtC := by
  unfold computeMalfamily malfamilySpec
  by_cases h1 : famFromMatches matched = ""
  · cases hvg : vtGuard res with
    | true =>
      by_cases h2 : vtC (vtDetectNames (res.virustotal_results.getD [])) = ""
      · cases hsg : suricataGuard res with
        | true =>
          cases hf : famSuricataFold (res.suricata_alerts.getD []) "" with
          | error e => simp [h1, hvg, h2, hsg, hf]
          | ok f3 =>
            by_cases h3 : f3 = "" <;> simp [h1, hvg, h2, hsg, hf, h3]
        | false => simp [h1, hvg, h2, hsg]
      · simp [h1, hvg, h2]
    | false =>
      cases hsg : suricataGuard res with
      | true =>
        cases hf : famSuricataFold (res.suricata_alerts.getD []) "" with
        | error e => simp [h1, hvg, hsg, hf]
        | ok f3 =>
          by_cases h3 : f3 = "" <;> simp [h1, hvg, hsg, hf, h3]
      | false => simp [h1, hvg, hsg]
  · simp [h1]

/-! ### Claim C10: the registry contract -/

/-- **C10.** Registering into a fresh group appends and `list` on an empty
group returns an empty bucket without error; but the claimed interleaving
`list(group)` on a not-yet-registered group followed by `register(group, d)`
raises `AttributeError` instead of appending: `list_plugins` makes the
`defaultdict` insert an empty *dict* (its default factory is `dict`, not
`list`), and `register_plugin`'s `setdefault(...).append` then calls
`.append` on that dict. -/
theorem c10_registry_eval :
    register_plugin [] "auxiliary" "Sniffer" =
      .ok [("auxiliary", Bucket.plugins ["Sniffer"])] ∧
    (list_plugins [] "auxiliary").2 = Bucket.emptyDict ∧
    register_plugin (list_plugins [] "auxiliary").1 "auxiliary" "Sniffer" =
      .error .attributeError := by
  decide

/-! ### Claim C8: constructor failures and sibling modules -/

/-- First auxiliary module of the C8 scenario (constructs, enabled, starts). -/
def c8AuxA : AuxModule := ⟨"AuxA", false, some true, .ok⟩

/-- Middle auxiliary module: its constructor raises. -/
def c8AuxB : AuxModule := ⟨"AuxB", true, some true, .ok⟩

/-- Third auxiliary module (constructs, enabled, starts). -/
def c8AuxC : AuxModule := ⟨"AuxC", false, some true, .ok⟩

/-- **C8, counterexample.** Three auxiliary modules with the middle one's
constructor raising: `start()` hits the `return` in the constructor handler
(source line 96) and aborts, so only the first module is started — the third
is *not*, contradicting the claim that siblings keep running in every
stage. -/
theorem c8_counterexample :
    (auxStartGo [c8AuxA, c8AuxB, c8AuxC]).1 = [c8AuxA] ∧
    (auxStartGo [c8AuxA, c8AuxB, c8AuxC]).2 = [.startOk "AuxA", .ctorFail "AuxB"] := by
  decide

/-- **C8, amended.** In the processing stage a constructor failure is
contained: the modules whose `run()` is invoked are exactly the
constructible, configured-and-enabled ones in `order`-sorted sequence,
regardless of constructor failures around them.  In the auxiliary stage a
constructor failure aborts `start()`: the started set is drawn from the
prefix of modules before the first constructor failure only (of those, the
enabled ones whose start hook succeeded). -/
theorem c8_amended :
    (∀ (mods : List ProcModule) (init : ProcOutput),
      (runProcessingRun mods init).invoked =
        init.invoked ++
          ((sortByKey (fun m => m.order) mods).filter
            (fun m => !m.ctor_fails && m.config == some true)).map
            (fun m => m.name)) ∧
    (∀ mods : List AuxModule,
      (auxStartGo mods).1 =
        (mods.takeWhile (fun m => !m.ctor_fails)).filter
          (fun m => m.config == some true && m.start_res == StartRes.ok)) :=
  ⟨fun mods init => foldl_processOne_invoked (sortByKey (fun m => m.order) mods) init,
    auxStartGo_enabled⟩

/-! ### Claim C9: stop exactly the started set -/

/-- **C9.** Over one `start()`-then-`stop()` cycle, a module name receives
exactly one `stop()` invocation when its `start()` hook completed
successfully (a `startOk` event was logged) and zero otherwise — in
particular zero for constructor failures, missing or disabled configuration,
and failing start hooks; `stop()` iterates the recorded `self.enabled` set,
not the full registry. -/
theorem c9_stop_exactly_started (mods : List AuxModule)
    (hnd : (mods.map (fun m => m.name)).Nodup) (n : String) :
    (auxCycle mods).count (.stopCall n) =
      if AuxEvent.startOk n ∈ auxCycle mods then 1 else 0 := by
  unfold auxCycle auxStop
  rcases hgo : auxStartGo mods with ⟨enabled, lg⟩
  have hlg0 : lg.count (AuxEvent.stopCall n) = 0 := by
    apply List.count_eq_zero.mpr
    have := auxStartGo_no_stop mods n
    rw [hgo] at this
    exact this
  have hmapeq : enabled.map (fun m => AuxEvent.stopCall m.name) =
      (enabled.map (fun m => m.name)).map AuxEvent.stopCall := by
    rw [List.map_map]
    rfl
  have hinj : Function.Injective AuxEvent.stopCall := by
    intro a b h
    injection h
  have hcount2 : (enabled.map (fun m => AuxEvent.stopCall m.name)).count
      (AuxEvent.stopCall n) = (enabled.map (fun m => m.name)).count n := by
    rw [hmapeq]
    exact List.count_map_of_injective _ _ hinj _
  have hnodup : (enabled.map (fun m => m.name)).Nodup := by
    apply hnd.sublist
    have := auxStartGo_names_sublist mods
    rw [hgo] at this
    exact this
  have hmem : AuxEvent.startOk n ∈ lg ++ enabled.map (fun m => AuxEvent.stopCall m.name) ↔
      n ∈ enabled.map (fun m => m.name) := by
    rw [List.mem_append]
    constructor
    · rintro (h | h)
      · have := auxStartGo_startOk_mem mods n
        rw [hgo] at this
        exact this.mp h
      · rcases List.mem_map.mp h with ⟨m, _, hm⟩
        cases hm
    · intro h
      left
      have := auxStartGo_startOk_mem mods n
      rw [hgo] at this
      exact this.mpr h
  rw [List.count_append, hlg0, hcount2, Nat.zero_add]
  by_cases hm : n ∈ enabled.map (fun m => m.name)
  · rw [if_pos (hmem.mpr hm)]
    exact List.count_eq_one_of_mem hnodup hm
  · rw [if_neg (fun h => hm (hmem.mp h))]
    exact List.count_eq_zero.mpr hm

/-- Witness for C9: a two-module cycle (one successful start, one failing
start hook), the theorem applied at the concrete list. -/
theorem c9_witness :
    (auxCycle [⟨"A", false, some true, .ok⟩, ⟨"B", false, some true, .exc⟩]).count
        (.stopCall "A") =
      if AuxEvent.startOk "A" ∈
          auxCycle [⟨"A", false, some true, .ok⟩, ⟨"B", false, some true, .exc⟩]
        then 1 else 0 :=
  c9_stop_exactly_started _ (by decide) "A"

/-! ### Claim C1: which failures escape the stage entry points -/

/-- When no eligible evented signature's constructor raises, the evented-list
comprehension succeeds. -/
lemma buildEventedList_ok (ver : String) (res : Results) (registry : List SigClass)
    (h : ∀ s ∈ registry, eventedGuard ver res s = true → s.ctor_fails = false) :
    ∃ l, buildEventedList ver res registry = .ok l := by
  induction registry with
  | nil => exact ⟨[], rfl⟩
  | cons s rest ih =>
    obtain ⟨l, hl⟩ := ih (fun x hx hg => h x (List.mem_cons_of_mem s hx) hg)
    cases hg : eventedGuard ver res s with
    | false => exact ⟨l, by simp [buildEventedList, hg, hl]⟩
    | true =>
      have hc := h s (List.mem_cons_self s rest) hg
      exact ⟨⟨s⟩ :: l, by simp [buildEventedList, hg, hc, hl]⟩

/-- When every alert is individually safe, the Suricata fold succeeds from
any starting family. -/
lemma famSuricataFold_ok (alerts : List String)
    (h : ∀ a ∈ alerts, ∀ fam, ∃ r, famSuricataStep fam a = .ok r) :
    ∀ fam, ∃ r, famSuricataFold alerts fam = .ok r := by
  induction alerts with
  | nil => exact fun fam => ⟨fam, rfl⟩
  | cons a rest ih =>
    intro fam
    obtain ⟨r1, hr1⟩ := h a (List.mem_cons_self a rest) fam
    obtain ⟨r2, hr2⟩ := ih (fun x hx => h x (List.mem_cons_of_mem a hx)) r1
    exact ⟨r2, by simp [famSuricataFold, hr1, hr2]⟩

/-- When every alert is individually safe, `malfamily` resolution succeeds on
every match list. -/
lemma computeMalfamily_ok (res : Results)
    (hs : ∀ a ∈ res.suricata_alerts.getD [], ∀ fam, ∃ r, famSuricataStep fam a = .ok r)
    (matched : List Match) (vtC : List String → String) :
    ∃ f, computeMalfamily res matched vtC = .ok f := by
  have hfold := famSuricataFold_ok (res.suricata_alerts.getD []) hs
  unfold computeMalfamily
  by_cases h1 : famFromMatches matched = ""
  · cases hvg : vtGuard res with
    | true =>
      by_cases h2 : vtC (vtDetectNames (res.virustotal_results.getD [])) = ""
      · cases hsg : suricataGuard res with
        | true =>
          obtain ⟨r, hr⟩ := hfold ""
          refine ⟨if r == "" && clamavGuard res then clamavFam res else r, ?_⟩
          simp [h1, hvg, h2, hsg, hr]
        | false =>
          refine ⟨if clamavGuard res then clamavFam res else "", ?_⟩
          simp [h1, hvg, h2, hsg]
      · exact ⟨vtC (vtDetectNames (res.virustotal_results.getD [])), by simp [h1, hvg, h2]⟩
    | false =>
      cases hsg : suricataGuard res with
      | true =>
        obtain ⟨r, hr⟩ := hfold ""
        refine ⟨if r == "" && clamavGuard res then clamavFam res else r, ?_⟩
        simp [h1, hvg, hsg, hr]
      | false =>
        refine ⟨if clamavGuard res then clamavFam res else "", ?_⟩
        simp [h1, hvg, hsg]
  · exact ⟨famFromMatches matched, by simp [h1]⟩

/-- `finishSignatures` succeeds whenever the family resolution does. -/
lemma finishSignatures_ok (res : Results) (vtC : List String → String)
    (sortedM : List Match) (evAll : List Event)
    (h : ∃ f, computeMalfamily res sortedM vtC = .ok f) :
    ∃ out, finishSignatures res vtC sortedM evAll = .ok out := by
  obtain ⟨f, hf⟩ := h
  refine ⟨{ signatures := sortedM, malscore := computeMalscore sortedM,
            malfamily := f, events := evAll }, ?_⟩
  simp [finishSignatures, hf]

/-- The Result Aggregate of the C1 scenarios: no behavioral telemetry, no
reputation lookup, one Suricata alert whose signature is exactly the trojan
lead `"ET TROJAN"` — it tokenizes to two fragments only. -/
def c1Res : Results := ⟨"file", "file", none, none, some ["ET TROJAN"], none⟩

/-- A plain aggregate with no telemetry at all. -/
def c1ResPlain : Results := ⟨"file", "file", none, none, none, none⟩

/-- An eligible evented signature class whose constructor raises. -/
def c1CtorSig : SigClass :=
  ⟨"CtorFail", true, true, 0, none, none, [], [], [], [], 1, 100, 2, [], true,
    fun _ _ => .inconclusive, .inconclusive, .nie, false⟩

/-- **C1, counterexample.** With no signatures registered and a Suricata
alert whose signature string starts with the trojan lead but tokenizes to
fewer than three word-like fragments, `RunSignatures.run` raises an
uncontained `IndexError` (`words[2]` at source line 527): the claimed
"no escaping exception" safety property is false at this input. -/
theorem c1_counterexample :
    runSignaturesRun "1.3" [] c1Res (fun _ => "") = .error .indexError := by
  decide

/-- **C1, amended.** Per-hook and per-module failures are contained, but
three inputs do raise out of the stage entry points: (a) `RunReporting`
construction raises `KeyError` on an aggregate without the `"behavior"` key
(and succeeds when the key is present); (b) an eligible evented signature
class whose constructor raises escapes `RunSignatures.run` as that
constructor's exception; (c) conversely, `RunSignatures.run` returns
normally — with a possibly partially-populated aggregate — whenever no
eligible evented signature's constructor raises and every trojan-prefixed
Suricata alert tokenizes safely, whatever the signature hooks and modules
do. -/
theorem c1_amended :
    (∀ res : Results, res.behavior = none → runReportingInit res = .error .keyError) ∧
    (∀ (res : Results) (procs : List ProcState), res.behavior = some procs →
      runReportingInit res = .ok res) ∧
    (∀ (ver : String) (res : Results) (vtC : List String → String) (s : SigClass),
      eventedGuard ver res s = true → s.ctor_fails = true →
      runSignaturesRun ver [s] res vtC = .error (.ctorError s.name)) ∧
    (∀ (ver : String) (registry : List SigClass) (res : Results)
        (vtC : List String → String),
      (∀ s ∈ registry, eventedGuard ver res s = true → s.ctor_fails = false) →
      (∀ a ∈ res.suricata_alerts.getD [], ∀ fam, ∃ r, famSuricataStep fam a = .ok r) →
      ∃ out, runSignaturesRun ver registry res vtC = .ok out) := by
  refine ⟨?_, ?_, ?_, ?_⟩
  · intro res h
    simp [runReportingInit, h]
  · intro res procs h
    simp [runReportingInit, h]
  · intro ver res vtC s hg hc
    simp [runSignaturesRun, buildEventedList, hg, hc]
  · intro ver registry res vtC hctor hsafe
    obtain ⟨l, hl⟩ := buildEventedList_ok ver res registry hctor
    unfold runSignaturesRun
    rw [hl]
    exact finishSignatures_ok res vtC _ _ (computeMalfamily_ok res hsafe _ vtC)

/-- Whether a run returned normally. -/
def exceptIsOk (r : Except PyError SigRunOut) : Bool :=
  match r with
  | .ok _ => true
  | .error _ => false

/-- Witness for C1 (amended): the reporting constructor fails on a concrete
aggregate without behavior, an eligible constructor-raising evented signature
escapes a concrete run, and a concrete benign run returns normally — the
amended theorem applied at concrete inputs. -/
theorem c1_amended_witness :
    runReportingInit c1ResPlain = .error .keyError ∧
    runSignaturesRun "1.3" [c1CtorSig] c1ResPlain (fun _ => "") =
      .error (.ctorError "CtorFail") ∧
    exceptIsOk (runSignaturesRun "1.3" [] c1ResPlain (fun _ => "")) = true := by
  refine ⟨c1_amended.1 c1ResPlain rfl,
    c1_amended.2.2.1 "1.3" c1ResPlain (fun _ => "") c1CtorSig (by decide) (by decide), ?_⟩
  obtain ⟨out, hout⟩ := c1_amended.2.2.2 "1.3" [] c1ResPlain (fun _ => "")
    (by intro s hs; simp at hs) (by intro a ha; simp [c1ResPlain] at ha)
  rw [hout]
  rfl

/-! ### Claim C2: terminal evented signatures and the batch candidate set -/

/-- Projection of a run outcome to its decidably-evaluable parts (the ℚ
score is dropped). -/
def sigOutObs (r : Except PyError SigRunOut) :
    Except PyError (List Match × String × List Event) :=
  match r with
  | .error e => .error e
  | .ok o => .ok (o.signatures, o.malfamily, o.events)

/-- C2 scenario: a single evented signature that matches on the first call. -/
def c2Sig : SigClass :=
  ⟨"EvtA", true, true, 0, none, none, [], [], [], [], 1, 100, 2, [], false,
    fun c _ => if c.id = 1 then .matched else .inconclusive, .inconclusive, .nie, false⟩

/-- C2 aggregate: one process with one call. -/
def c2Res : Results :=
  ⟨"file", "file", some [⟨"p1", [⟨"CreateFile", "filesystem", 1⟩], 0⟩], none, none, none⟩

/-- **C2 (code bug).** The evented signature `EvtA` reaches its terminal
outcome (matched) on the first call of the evented pass — yet the batch pass
still invokes its batch `run()` entry point (the `batchRun "EvtA"` event):
the removal `if sig in complete_list: complete_list.remove(sig)` (source
lines 433-434) tests a freshly constructed *instance* against the list of
registered *classes*, which is never true, so no class is ever removed from
the batch candidate list and `process()` re-instantiates and runs it. -/
theorem c2_bug_eval :
    sigOutObs (runSignaturesRun "1.3" [c2Sig] c2Res (fun _ => "")) =
      .ok ([⟨"EvtA", 1, 100, 2, []⟩], "",
        [.onCall "EvtA" 1, .batchRun "EvtA" [[]]]) := by
  decide

/-! ### Claim C3: per-call dispatch to the active evented signatures -/

/-- The event log of a run (empty when the run raised). -/
def eventsOf (r : Except PyError SigRunOut) : List Event :=
  match r with
  | .ok o => o.events
  | .error _ => []

/-- C3 scenario, first registered evented signature: matches on call 1. -/
def c3SigA : SigClass :=
  ⟨"SigA", true, true, 0, none, none, [], [], [], [], 1, 100, 2, [], false,
    fun c _ => if c.id = 1 then .matched else .inconclusive, .inconclusive, .nie, false⟩

/-- C3 scenario, second registered evented signature: always inconclusive
per call, not matched on completion; it declares no filters, so every call
should reach it while it is active. -/
def c3SigB : SigClass :=
  ⟨"SigB", true, true, 1, none, none, [], [], [], [], 1, 100, 2, [], false,
    fun _ _ => .inconclusive, .notmatched, .nie, false⟩

/-- C3 aggregate: one process with two calls. -/
def c3Res : Results :=
  ⟨"file", "file",
    some [⟨"p1", [⟨"CreateFile", "filesystem", 1⟩, ⟨"ReadFile", "filesystem", 2⟩], 0⟩],
    none, none, none⟩

/-- **C3 (code bug).** `SigB` is active and filter-free when call 1 is
dispatched, but its per-call hook is *not* invoked for call 1 (the log has
`onCall "SigB" 2` only): `SigA` matches on call 1 and
`evented_list.remove(sig)` (source line 437) mutates the list mid-iteration,
so CPython's index-based iterator skips the signature that followed the
removed one for the current call — contradicting the claim that a terminal
outcome of one signature never makes another still-active signature miss
that call. -/
theorem c3_bug_eval :
    sigOutObs (runSignaturesRun "1.3" [c3SigA, c3SigB] c3Res (fun _ => "")) =
      .ok ([⟨"SigA", 1, 100, 2, []⟩], "",
        [.onCall "SigA" 1, .onCall "SigB" 2, .onComplete "SigB",
         .batchRun "SigA" [[]], .batchRun "SigB" [[1, 2]]]) ∧
    (eventsOf (runSignaturesRun "1.3" [c3SigA, c3SigB] c3Res (fun _ => ""))).count
      (Event.onCall "SigB" 1) = 0 := by
  constructor
  · decide
  · decide

/-! ### Claim C4: the call cursor between signature traversals -/

/-- Views recorded at the batch `run()` invocations of an event log. -/
def batchViews (lg : List Event) : List (List (List Nat)) :=
  lg.filterMap (fun e =>
    match e with
    | .batchRun _ o => some o
    | _ => none)

/-- C4 scenario, an evented signature (batch `order` 1). -/
def c4SigE : SigClass :=
  ⟨"Evt1", true, true, 1, none, none, [], [], [], [], 1, 100, 2, [], false,
    fun _ _ => .inconclusive, .notmatched, .nie, false⟩

/-- C4 scenario, a batch signature that sorts first (`order` 0). -/
def c4SigB : SigClass :=
  ⟨"Bat1", true, false, 0, none, none, [], [], [], [], 1, 100, 2, [], false,
    fun _ _ => .inconclusive, .inconclusive, .ret false, true⟩

/-- C4 aggregate: one process with one call, cursor at the start. -/
def c4Res : Results :=
  ⟨"file", "file", some [⟨"p1", [⟨"CreateFile", "filesystem", 1⟩], 0⟩], none, none, none⟩

/-- **C4, counterexample.** The first batch signature to run after the
evented pass (`Bat1`) observes an *empty* remainder `[[]]` of the call
sequence — not the full sequence `[[1]]` — because the evented pass consumed
the shared cursor and the reset (source lines 484-487) only happens *after*
each batch signature, never between the evented pass and the first batch
signature.  The claim that every batch signature observes the full sequence
from the start is false at this input. -/
theorem c4_counterexample :
    sigOutObs (runSignaturesRun "1.3" [c4SigE, c4SigB] c4Res (fun _ => "")) =
      .ok ([], "",
        [.onCall "Evt1" 1, .onComplete "Evt1",
         .batchRun "Bat1" [[]], .batchRun "Evt1" [[1]]]) ∧
    fullViewProcs [⟨"p1", [⟨"CreateFile", "filesystem", 1⟩], 0⟩] = [[1]] := by
  constructor
  · decide
  · decide

/-- A freshly reset cursor shows the full sequence. -/
lemma viewProcs_reset (procs : List ProcState) :
    viewProcs (resetProcs procs) = fullViewProcs procs := by
  simp [viewProcs, resetProcs, fullViewProcs, List.map_map, Function.comp]

/-- Resetting does not change the underlying sequences. -/
lemma fullViewProcs_reset (procs : List ProcState) :
    fullViewProcs (resetProcs procs) = fullViewProcs procs := by
  simp [fullViewProcs, resetProcs, List.map_map, Function.comp]

/-- Consuming does not change the underlying sequences. -/
lemma fullViewProcs_consume (procs : List ProcState) :
    fullViewProcs (consumeProcs procs) = fullViewProcs procs := by
  simp [fullViewProcs, consumeProcs, List.map_map, Function.comp]

/-- Resetting twice is resetting once. -/
lemma resetProcs_reset (procs : List ProcState) :
    resetProcs (resetProcs procs) = resetProcs procs := by
  simp [resetProcs, List.map_map, Function.comp]

/-- Resetting after consumption is just resetting. -/
lemma resetProcs_consume (procs : List ProcState) :
    resetProcs (consumeProcs procs) = resetProcs procs := by
  simp [resetProcs, consumeProcs, List.map_map, Function.comp]

/-- A cursor state with every position at the start is already reset. -/
lemma resetProcs_of_zero (procs : List ProcState) (h : ∀ p ∈ procs, p.pos = 0) :
    resetProcs procs = procs := by
  induction procs with
  | nil => rfl
  | cons p ps ih =>
    have hp : p.pos = 0 := h p (List.mem_cons_self p ps)
    have hps := ih (fun q hq => h q (List.mem_cons_of_mem p hq))
    unfold resetProcs at hps ⊢
    rw [List.map_cons, hps]
    cases p with
    | mk n c pos =>
      simp only at hp
      subst hp
      rfl

/-- `process` for one batch signature either contributes nothing and leaves
the state untouched (constructor failure, disabled, version-rejected), or
invokes `run()` once — recording the observed view — and possibly consumes
the cursors. -/
lemma processBatch_shape (ver : String) (s : SigClass) (procs : Option (List ProcState)) :
    processBatch ver s procs = (none, procs, []) ∨
    ∃ mt, processBatch ver s procs =
      (mt, (if s.run_consumes then procs.map consumeProcs else procs),
        [.batchRun s.name (viewProcs (procs.getD []))]) := by
  unfold processBatch
  by_cases h1 : s.ctor_fails
  · left; simp [h1]
  · by_cases h2 : s.enabled
    · by_cases h3 : checkSignatureVersion ver s.minimum s.maximum
      · cases hr : s.run_res with
        | ret b =>
          cases b
          · exact Or.inr ⟨none, by simp [h1, h2, h3, hr]⟩
          · exact Or.inr ⟨some (mkMatch s), by simp [h1, h2, h3, hr]⟩
        | nie => exact Or.inr ⟨none, by simp [h1, h2, h3, hr]⟩
        | exc => exact Or.inr ⟨none, by simp [h1, h2, h3, hr]⟩
      · left; simp [h1, h2, h3]
    · left; simp [h1, h2]

/-- Every view recorded by a batch loop that starts from a reset cursor state
is the full sequence: the loop resets the cursors after each processed
signature, and the underlying sequences never change. -/
lemma batchLoop_views_reset (ver cat : String) :
    ∀ (sigs : List SigClass) (st : List ProcState) (m : List Match),
      st = resetProcs st →
      ∀ v ∈ batchViews (batchLoop ver cat sigs (some st) m).2.2,
        v = fullViewProcs st := by
  intro sigs
  induction sigs with
  | nil =>
    intro st m _ v hv
    simp [batchLoop, batchViews] at hv
  | cons s rest ih =>
    intro st m hr v hv
    have hview : viewProcs st = fullViewProcs st := by
      rw [hr, viewProcs_reset, fullViewProcs_reset]
    by_cases hf : (s.filter_analysistypes.isEmpty ||
        s.filter_analysistypes.contains cat) = true
    · rcases processBatch_shape ver s (some st) with hpb | ⟨mt, hpb⟩
      · simp only [batchLoop, hf, if_true, hpb, Option.map_some', List.nil_append] at hv
        rw [← hr] at hv
        exact ih st m hr v hv
      · cases hcons : s.run_consumes with
        | true =>
          simp only [batchLoop, hf, if_true, hpb, hcons, Option.map_some',
            Option.getD_some, batchViews, List.filterMap_append] at hv
          rw [resetProcs_consume] at hv
          rcases List.mem_append.mp hv with h | h
          · have : v = viewProcs st := by simpa using h
            rw [this]
            exact hview
          · have h2 := ih (resetProcs st) _ (resetProcs_reset st).symm v h
            rw [fullViewProcs_reset] at h2
            exact h2
        | false =>
          simp only [batchLoop, hf, if_true, hpb, hcons, Option.map_some',
            Option.getD_some, batchViews, List.filterMap_append,
            Bool.false_eq_true, if_false] at hv
          rcases List.mem_append.mp hv with h | h
          · have : v = viewProcs st := by simpa using h
            rw [this]
            exact hview
          · rw [← hr] at h
            exact ih st _ hr v h
    · simp only [batchLoop, hf, if_false] at hv
      exact ih st m hr v hv

/-- From an arbitrary cursor state, every view recorded by the batch loop
*after the first recorded one* is the full sequence. -/
lemma batchLoop_views_tail (ver cat : String) :
    ∀ (sigs : List SigClass) (st : List ProcState) (m : List Match),
      ∀ v ∈ (batchViews (batchLoop ver cat sigs (some st) m).2.2).drop 1,
        v = fullViewProcs st := by
  intro sigs
  induction sigs with
  | nil =>
    intro st m v hv
    simp [batchLoop, batchViews] at hv
  | cons s rest ih =>
    intro st m v hv
    by_cases hf : (s.filter_analysistypes.isEmpty ||
        s.filter_analysistypes.contains cat) = true
    · rcases processBatch_shape ver s (some st) with hpb | ⟨mt, hpb⟩
      · simp only [batchLoop, hf, if_true, hpb, Option.map_some', List.nil_append] at hv
        have hall := batchLoop_views_reset ver cat rest (resetProcs st) m
          (resetProcs_reset st).symm v (List.drop_subset 1 _ hv)
        rw [fullViewProcs_reset] at hall
        exact hall
      · cases hcons : s.run_consumes with
        | true =>
          simp only [batchLoop, hf, if_true, hpb, hcons, Option.map_some',
            Option.getD_some, batchViews, List.filterMap_append] at hv
          rw [resetProcs_consume] at hv
          have hsing : List.filterMap (fun e =>
              match e with
              | Event.batchRun _ o => some o
              | _ => none) [Event.batchRun s.name (viewProcs st)] =
              [viewProcs st] := by simp
          rw [hsing, List.singleton_append, List.drop_succ_cons, List.drop_zero] at hv
          have hall := batchLoop_views_reset ver cat rest (resetProcs st) _
            (resetProcs_reset st).symm v hv
          rw [fullViewProcs_reset] at hall
          exact hall
        | false =>
          simp only [batchLoop, hf, if_true, hpb, hcons, Option.map_some',
            Option.getD_some, batchViews, List.filterMap_append,
            Bool.false_eq_true, if_false] at hv
          have hsing : List.filterMap (fun e =>
              match e with
              | Event.batchRun _ o => some o
              | _ => none) [Event.batchRun s.name (viewProcs st)] =
              [viewProcs st] := by simp
          rw [hsing, List.singleton_append, List.drop_succ_cons, List.drop_zero] at hv
          have hall := batchLoop_views_reset ver cat rest (resetProcs st) _
            (resetProcs_reset st).symm v hv
          rw [fullViewProcs_reset] at hall
          exact hall
    · simp only [batchLoop, hf, if_false] at hv
      exact ih st m v hv

/-- **C4, amended.** The call cursors are reset after each batch signature,
so every batch signature other than the first one processed observes each
process's full call sequence from the start; when the cursors enter the
batch pass at their initial positions (no evented pass consumed them), the
first batch signature does too.  (The counterexample shows the remaining
case: after an evented pass, the first batch signature observes the
exhausted cursor state the evented pass left behind.) -/
theorem c4_amended (ver cat : String) (sigs : List SigClass)
    (procs : List ProcState) (m : List Match) :
    (∀ v ∈ (batchViews (batchLoop ver cat sigs (some procs) m).2.2).drop 1,
      v = fullViewProcs procs) ∧
    ((∀ p ∈ procs, p.pos = 0) →
      ∀ v ∈ batchViews (batchLoop ver cat sigs (some procs) m).2.2,
        v = fullViewProcs procs) := by
  constructor
  · exact batchLoop_views_tail ver cat sigs procs m
  · intro h0
    exact batchLoop_views_reset ver cat sigs procs m (resetProcs_of_zero procs h0).symm

/-- Witness for C4 (amended): a batch loop over one batch signature from a
reset cursor records exactly the full view, the theorem applied at concrete
inputs. -/
theorem c4_amended_witness :
    ([[1]] : List (List Nat)) =
      fullViewProcs [⟨"p1", [⟨"CreateFile", "filesystem", 1⟩], 0⟩] :=
  (c4_amended "1.3" "file" [c4SigB] [⟨"p1", [⟨"CreateFile", "filesystem", 1⟩], 0⟩] []).2
    (by decide) [[1]] (by decide)
